import Mathlib

/-!
Verification of the mixpanel client library (`mixpanel.go`).

The Go source is shallowly embedded: parameter maps (`map[string]string`)
become association lists, the MD5 hash from `crypto/md5` is implemented
bit-for-bit on byte lists, `time.Now()` is threaded as an explicit Unix
timestamp, and the HTTP transport result is passed in as an
`Except Unit String` (error or response body).  JSON decoding
(`encoding/json`) is modelled by an executable parser and per-shape
converters.
-/

set_option maxRecDepth 100000

/-! ### 32-bit arithmetic and MD5 (model of Go `crypto/md5`) -/

def M32 : Nat := 4294967296

def add32 (a b : Nat) : Nat := (a + b) % M32

def not32 (x : Nat) : Nat := Nat.xor x (M32 - 1)

def rotl32 (x s : Nat) : Nat := (Nat.lor (Nat.shiftLeft x s) (Nat.shiftRight x (32 - s))) % M32

def md5F (b c d : Nat) : Nat := Nat.lor (Nat.land b c) (Nat.land (not32 b) d)

def md5G (b c d : Nat) : Nat := Nat.lor (Nat.land d b) (Nat.land (not32 d) c)

def md5H (b c d : Nat) : Nat := Nat.xor b (Nat.xor c d)

def md5I (b c d : Nat) : Nat := Nat.xor c (Nat.lor b (not32 d))

def md5K : List Nat :=
  [0xd76aa478, 0xe8c7b756, 0x242070db, 0xc1bdceee,
   0xf57c0faf, 0x4787c62a, 0xa8304613, 0xfd469501,
   0x698098d8, 0x8b44f7af, 0xffff5bb1, 0x895cd7be,
   0x6b901122, 0xfd987193, 0xa679438e, 0x49b40821,
   0xf61e2562, 0xc040b340, 0x265e5a51, 0xe9b6c7aa,
   0xd62f105d, 0x02441453, 0xd8a1e681, 0xe7d3fbc8,
   0x21e1cde6, 0xc33707d6, 0xf4d50d87, 0x455a14ed,
   0xa9e3e905, 0xfcefa3f8, 0x676f02d9, 0x8d2a4c8a,
   0xfffa3942, 0x8771f681, 0x6d9d6122, 0xfde5380c,
   0xa4beea44, 0x4bdecfa9, 0xf6bb4b60, 0xbebfbc70,
   0x289b7ec6, 0xeaa127fa, 0xd4ef3085, 0x04881d05,
   0xd9d4d039, 0xe6db99e5, 0x1fa27cf8, 0xc4ac5665,
   0xf4292244, 0x432aff97, 0xab9423a7, 0xfc93a039,
   0x655b59c3, 0x8f0ccc92, 0xffeff47d, 0x85845dd1,
   0x6fa87e4f, 0xfe2ce6e0, 0xa3014314, 0x4e0811a1,
   0xf7537e82, 0xbd3af235, 0x2ad7d2bb, 0xeb86d391]

def md5S : List Nat :=
  [7, 12, 17, 22, 7, 12, 17, 22, 7, 12, 17, 22, 7, 12, 17, 22,
   5, 9, 14, 20, 5, 9, 14, 20, 5, 9, 14, 20, 5, 9, 14, 20,
   4, 11, 16, 23, 4, 11, 16, 23, 4, 11, 16, 23, 4, 11, 16, 23,
   6, 10, 15, 21, 6, 10, 15, 21, 6, 10, 15, 21, 6, 10, 15, 21]

def md5Step (m : List Nat) (st : Nat × Nat × Nat × Nat) (i : Nat) : Nat × Nat × Nat × Nat :=
  let a := st.1
  let b := st.2.1
  let c := st.2.2.1
  let d := st.2.2.2
  let f :=
    if i < 16 then md5F b c d
    else if i < 32 then md5G b c d
    else if i < 48 then md5H b c d
    else md5I b c d
  let g :=
    if i < 16 then i
    else if i < 32 then (5 * i + 1) % 16
    else if i < 48 then (3 * i + 5) % 16
    else (7 * i) % 16
  let f2 := (f + a + md5K.getD i 0 + m.getD g 0) % M32
  (d, add32 b (rotl32 f2 (md5S.getD i 0)), b, c)

def wordsLE : List Nat → List Nat
  | b0 :: b1 :: b2 :: b3 :: rest =>
      (b0 + 256 * b1 + 65536 * b2 + 16777216 * b3) :: wordsLE rest
  | _ => []

def md5Block (st : Nat × Nat × Nat × Nat) (block : List Nat) : Nat × Nat × Nat × Nat :=
  let m := wordsLE block
  let r := (List.range 64).foldl (md5Step m) st
  (add32 st.1 r.1, add32 st.2.1 r.2.1, add32 st.2.2.1 r.2.2.1, add32 st.2.2.2 r.2.2.2)

def md5Pad (msg : List Nat) : List Nat :=
  let n := msg.length
  msg ++ 128 :: List.replicate ((119 - n % 64) % 64) 0
      ++ (List.range 8).map (fun i => ((8 * n) >>> (8 * i)) % 256)

def chunks64 : Nat → List Nat → List (List Nat)
  | 0, _ => []
  | _, [] => []
  | fuel + 1, l => l.take 64 :: chunks64 fuel (l.drop 64)

def wordLEBytes (w : Nat) : List Nat := [w % 256, (w >>> 8) % 256, (w >>> 16) % 256, (w >>> 24) % 256]

def md5Bytes (msg : List Nat) : List Nat :=
  let padded := md5Pad msg
  let r := (chunks64 padded.length padded).foldl md5Block
    (1732584193, 4023233417, 2562383102, 271733878)
  wordLEBytes r.1 ++ wordLEBytes r.2.1 ++ wordLEBytes r.2.2.1 ++ wordLEBytes r.2.2.2

def hexDigitChar (n : Nat) : Char := Char.ofNat (if n < 10 then 48 + n else 87 + n)

def byteToHex (b : Nat) : List Char := [hexDigitChar (b / 16), hexDigitChar (b % 16)]

/-- UTF-8 encoding of a Unicode code point, as the byte list Go obtains
from a `string`'s underlying bytes. -/
def utf8EncodeCharNat (c : Nat) : List Nat :=
  if c < 128 then [c]
  else if c < 2048 then [192 + c / 64, 128 + c % 64]
  else if c < 65536 then [224 + c / 4096, 128 + (c / 64) % 64, 128 + c % 64]
  else [240 + c / 262144, 128 + (c / 4096) % 64, 128 + (c / 64) % 64, 128 + c % 64]

def strBytes (s : String) : List Nat := s.data.flatMap (fun c => utf8EncodeCharNat c.toNat)

/-- Lowercase hexadecimal MD5 digest of a byte list; models
`fmt.Sprintf("%x", md5.Sum(bytes))`. -/
def md5Hex (msg : List Nat) : String := String.mk ((md5Bytes msg).flatMap byteToHex)

/-! ### Parameter sets (model of Go `map[string]string`) -/

/-- A Go `map[string]string` value, as an association list.  Maps the
library builds have pairwise-distinct keys; iteration order is irrelevant
to the signer because it sorts the keys. -/
abbrev Params := List (String × String)

def plookup (k : String) : Params → Option String
  | [] => none
  | p :: rest => if p.1 = k then some p.2 else plookup k rest

/-- Go map read `m[k]`: a missing key yields the zero value `""`. -/
def getv (k : String) (ps : Params) : String := (plookup k ps).getD ""

/-- Go `delete(m, k)`. -/
def eraseKey (k : String) : Params → Params
  | [] => []
  | p :: rest => if p.1 = k then eraseKey k rest else p :: eraseKey k rest

/-- Go map write `m[k] = v`. -/
def insertKV (k v : String) (ps : Params) : Params := (k, v) :: eraseKey k ps

def keysOf (ps : Params) : List String := ps.map Prod.fst

/-- Byte-wise lexicographic comparison of strings (UTF-8 byte order equals
code-point order), as Go's `sort.StringSlice` compares `string`s. -/
def strLeB : List Char → List Char → Bool
  | [], _ => true
  | _ :: _, [] => false
  | a :: as, b :: bs => if a = b then strLeB as bs else decide (a.toNat < b.toNat)

def goStrLe (a b : String) : Prop := strLeB a.data b.data = true

instance : DecidableRel goStrLe :=
  fun a b => inferInstanceAs (Decidable (strLeB a.data b.data = true))

/-- Go `sort.StringSlice(keys).Sort()`: ascending byte-wise sort. -/
def sortStrings (l : List String) : List String := List.insertionSort goStrLe l

def sortedKeys (ps : Params) : List String := sortStrings (keysOf ps)

/-- The canonical concatenation built in `AddSig`: for each sorted key in
order, `key + "=" + value`, with no separators. -/
def canonicalConcat (ps : Params) : String :=
  String.join ((sortedKeys ps).map (fun k => k ++ "=" ++ getv k ps))

/-! ### Client construction (`NewMixpanelAuth`, `NewMixpanel`) -/

structure MixpanelAuth where
  ApiKey : String
  Secret : String

structure Mixpanel where
  auth : MixpanelAuth
  Format : String
  BaseUrl : String

def Mixpanel.ApiKey (m : Mixpanel) : String := m.auth.ApiKey

def Mixpanel.Secret (m : Mixpanel) : String := m.auth.Secret

def NewMixpanelAuth (apiKey secret : String) : Except String MixpanelAuth :=
  if apiKey = "" ∨ secret = "" then Except.error "Mixpanel API credentials not found."
  else Except.ok ⟨apiKey, secret⟩

/-- Model of `NewMixpanel`; the `log.Fatal` on bad credentials aborts the process,
modelled as the error case (no request can ever be made from it). -/
def NewMixpanel (apiKey secret : String) : Except String Mixpanel :=
  match NewMixpanelAuth apiKey secret with
  | Except.error e => Except.error e
  | Except.ok ma => Except.ok ⟨ma, "json", "http://mixpanel.com/api/2.0"⟩

/-! ### Expiry stamping and signing (`AddExpire`, `AddSig`) -/

def DEFAULT_EXPIRE_IN_DAYS : Int := 5

/-- Model of `ExpireInDays`, with `time.Now().Unix()` passed in as `now`; the added
duration is a whole number of seconds, so `.Unix()` distributes. -/
def ExpireInDays (now days : Int) : Int := now + days * 24 * 60 * 60

def ExpireInHours (now hours : Int) : Int := now + hours * 60 * 60

def AddExpire (now : Int) (ps : Params) : Params :=
  if getv "expire" ps = "" then
    insertKV "expire" (toString (ExpireInDays now DEFAULT_EXPIRE_IN_DAYS)) ps
  else ps

/-- The parameter set `AddSig` hashes: `sig` deleted, then `api_key` and
`format` stored. -/
def sigBase (m : Mixpanel) (ps : Params) : Params :=
  insertKV "format" m.Format (insertKV "api_key" m.ApiKey (eraseKey "sig" ps))

/-- The hex signature `AddSig` computes: MD5 of the canonical
concatenation with the secret appended (no separator). -/
def sigValue (m : Mixpanel) (ps : Params) : String :=
  md5Hex (strBytes (canonicalConcat (sigBase m ps) ++ m.Secret))

def AddSig (m : Mixpanel) (ps : Params) : Params :=
  insertKV "sig" (sigValue m ps) (sigBase m ps)

/-! ### `MakeRequest` parameter pipeline -/

def splitChar (sep : Char) : List Char → List (List Char)
  | [] => [[]]
  | c :: rest =>
    if c = sep then [] :: splitChar sep rest
    else
      match splitChar sep rest with
      | g :: gs => (c :: g) :: gs
      | [] => [[c]]

/-- Go `strings.Split(s, sep)` for a one-character separator. -/
def stringsSplit (s : String) (sep : Char) : List String := (splitChar sep s.data).map String.mk

/-- Go `encoding/json` string escaping (default HTML escaping on). -/
def goEscapeChar (c : Char) : List Char :=
  if c = '"' then ['\\', '"']
  else if c = '\\' then ['\\', '\\']
  else if c = '\n' then ['\\', 'n']
  else if c = '\r' then ['\\', 'r']
  else if c = '\t' then ['\\', 't']
  else if c = '<' ∨ c = '>' ∨ c = '&' ∨ c.toNat < 32 ∨ c.toNat = 8232 ∨ c.toNat = 8233 then
    ['\\', 'u', hexDigitChar (c.toNat / 4096), hexDigitChar ((c.toNat / 256) % 16),
      hexDigitChar ((c.toNat / 16) % 16), hexDigitChar (c.toNat % 16)]
  else [c]

/-- Go `json.Marshal` of a `[]string` (it never fails). -/
def goMarshalStringList (xs : List String) : String :=
  "[" ++ String.intercalate ","
    (xs.map (fun s => "\"" ++ String.mk (s.data.flatMap goEscapeChar) ++ "\"")) ++ "]"

/-- The `event` pre-processing at the top of `MakeRequest`: read and delete
`event`; if it was present and non-empty, split on commas, JSON-encode the
list and store it back. -/
def eventTransform (ps : Params) : Params :=
  match plookup "event" ps with
  | none => eraseKey "event" ps
  | some e =>
    if e = "" then eraseKey "event" ps
    else insertKV "event" (goMarshalStringList (stringsSplit e ',')) (eraseKey "event" ps)

/-- The parameter pipeline of `MakeRequest` before query-string
serialization: the event rewrite, then `AddExpire`, then `AddSig`. -/
def MakeRequestParams (m : Mixpanel) (now : Int) (ps : Params) : Params :=
  AddSig m (AddExpire now (eventTransform ps))

/-! ### JSON values and parsing (model of Go `encoding/json` decoding) -/

inductive Json where
  | null
  | bool (b : Bool)
  | num (man : Int) (exp10 : Int)
  | str (s : String)
  | arr (xs : List Json)
  | obj (fields : List (String × Json))

def isWs (c : Char) : Bool := c = ' ' ∨ c = '\t' ∨ c = '\n' ∨ c = '\r'

def skipWs (cs : List Char) : List Char := cs.dropWhile isWs

def isDigitCh (c : Char) : Bool := 48 ≤ c.toNat ∧ c.toNat ≤ 57

def digitsToNat (ds : List Char) : Nat := ds.foldl (fun acc c => 10 * acc + (c.toNat - 48)) 0

def hexVal (c : Char) : Option Nat :=
  if 48 ≤ c.toNat ∧ c.toNat ≤ 57 then some (c.toNat - 48)
  else if 97 ≤ c.toNat ∧ c.toNat ≤ 102 then some (c.toNat - 87)
  else if 65 ≤ c.toNat ∧ c.toNat ≤ 70 then some (c.toNat - 55)
  else none

def chOfNat (n : Nat) : Char := Char.ofNat n

/-- Body of a JSON string literal after the opening quote; `\uXXXX`
escapes combine surrogate pairs and replace lone surrogates with U+FFFD,
as Go does. -/
def parseJStringAux : Nat → List Char → List Char → Option (String × List Char)
  | 0, _, _ => none
  | fuel + 1, acc, cs =>
    match cs with
    | '"' :: rest => some (String.mk acc.reverse, rest)
    | '\\' :: 'u' :: a :: b :: c :: d :: '\\' :: 'u' :: e :: f :: g :: h :: rest =>
      (match hexVal a, hexVal b, hexVal c, hexVal d with
       | some va, some vb, some vc, some vd =>
         let n := 4096 * va + 256 * vb + 16 * vc + vd
         let cont := '\\' :: 'u' :: e :: f :: g :: h :: rest
         if 55296 ≤ n ∧ n ≤ 56319 then
           match hexVal e, hexVal f, hexVal g, hexVal h with
           | some ve, some vf, some vg, some vh =>
             let n2 := 4096 * ve + 256 * vf + 16 * vg + vh
             if 56320 ≤ n2 ∧ n2 ≤ 57343 then
               parseJStringAux fuel (chOfNat (65536 + 1024 * (n - 55296) + (n2 - 56320)) :: acc) rest
             else parseJStringAux fuel (chOfNat 65533 :: acc) cont
           | _, _, _, _ => parseJStringAux fuel (chOfNat 65533 :: acc) cont
         else if 56320 ≤ n ∧ n ≤ 57343 then parseJStringAux fuel (chOfNat 65533 :: acc) cont
         else parseJStringAux fuel (chOfNat n :: acc) cont
       | _, _, _, _ => none)
    | '\\' :: 'u' :: a :: b :: c :: d :: rest =>
      (match hexVal a, hexVal b, hexVal c, hexVal d with
       | some va, some vb, some vc, some vd =>
         let n := 4096 * va + 256 * vb + 16 * vc + vd
         if 55296 ≤ n ∧ n ≤ 57343 then parseJStringAux fuel (chOfNat 65533 :: acc) rest
         else parseJStringAux fuel (chOfNat n :: acc) rest
       | _, _, _, _ => none)
    | '\\' :: esc :: rest =>
      if esc = '"' ∨ esc = '\\' ∨ esc = '/' then parseJStringAux fuel (esc :: acc) rest
      else if esc = 'b' then parseJStringAux fuel (chOfNat 8 :: acc) rest
      else if esc = 'f' then parseJStringAux fuel (chOfNat 12 :: acc) rest
      else if esc = 'n' then parseJStringAux fuel ('\n' :: acc) rest
      else if esc = 'r' then parseJStringAux fuel ('\r' :: acc) rest
      else if esc = 't' then parseJStringAux fuel ('\t' :: acc) rest
      else none
    | c :: rest => if c.toNat < 32 then none else parseJStringAux fuel (c :: acc) rest
    | [] => none

/-- A JSON number literal: optional minus, integer part (`0` or non-zero
leading digit), optional fraction, optional exponent.  The value is kept
exactly as `man * 10 ^ exp10`. -/
def parseJNumber (cs : List Char) : Option (Json × List Char) :=
  let signAndRest : Bool × List Char :=
    match cs with
    | '-' :: rest => (true, rest)
    | _ => (false, cs)
  let neg := signAndRest.1
  let cs1 := signAndRest.2
  let intPart : Option (List Char × List Char) :=
    match cs1 with
    | c :: rest =>
      if c = '0' then some ([c], rest)
      else if isDigitCh c then some (c :: rest.takeWhile isDigitCh, rest.dropWhile isDigitCh)
      else none
    | [] => none
  match intPart with
  | none => none
  | some (intDigits, cs2) =>
    let fracPart : Option (List Char × List Char) :=
      match cs2 with
      | '.' :: rest =>
        match rest.takeWhile isDigitCh with
        | [] => none
        | ds => some (ds, rest.dropWhile isDigitCh)
      | _ => some ([], cs2)
    match fracPart with
    | none => none
    | some (fracDigits, cs3) =>
      let expPart : Option (Int × List Char) :=
        match cs3 with
        | e :: rest =>
          if e = 'e' ∨ e = 'E' then
            let signAndRest2 : Bool × List Char :=
              match rest with
              | '-' :: rest2 => (true, rest2)
              | '+' :: rest2 => (false, rest2)
              | _ => (false, rest)
            match signAndRest2.2.takeWhile isDigitCh with
            | [] => none
            | ds =>
              let v : Int := Int.ofNat (digitsToNat ds)
              some (if signAndRest2.1 then -v else v, signAndRest2.2.dropWhile isDigitCh)
          else some (0, cs3)
        | [] => some (0, cs3)
      match expPart with
      | none => none
      | some (e, cs4) =>
        let manNat := digitsToNat (intDigits ++ fracDigits)
        let man : Int := if neg then -(Int.ofNat manNat) else Int.ofNat manNat
        some (Json.num man (e - Int.ofNat fracDigits.length), cs4)

mutual

def parseValue : Nat → List Char → Option (Json × List Char)
  | 0, _ => none
  | fuel + 1, cs =>
    match skipWs cs with
    | 'n' :: 'u' :: 'l' :: 'l' :: rest => some (Json.null, rest)
    | 't' :: 'r' :: 'u' :: 'e' :: rest => some (Json.bool true, rest)
    | 'f' :: 'a' :: 'l' :: 's' :: 'e' :: rest => some (Json.bool false, rest)
    | '"' :: rest => (parseJStringAux rest.length [] rest).map (fun r => (Json.str r.1, r.2))
    | '[' :: rest => parseArrayItems fuel (skipWs rest) []
    | '\x7b' :: rest => parseObjItems fuel (skipWs rest) []
    | c :: rest => if c = '-' ∨ isDigitCh c then parseJNumber (c :: rest) else none
    | [] => none

def parseArrayItems : Nat → List Char → List Json → Option (Json × List Char)
  | 0, _, _ => none
  | fuel + 1, cs, acc =>
    match cs with
    | ']' :: rest => if acc.isEmpty then some (Json.arr [], rest) else none
    | _ =>
      match parseValue fuel cs with
      | none => none
      | some (v, rest) =>
        match skipWs rest with
        | ',' :: rest2 => parseArrayItems fuel (skipWs rest2) (acc ++ [v])
        | ']' :: rest2 => some (Json.arr (acc ++ [v]), rest2)
        | _ => none

def parseObjItems : Nat → List Char → List (String × Json) → Option (Json × List Char)
  | 0, _, _ => none
  | fuel + 1, cs, acc =>
    match cs with
    | '\x7d' :: rest => if acc.isEmpty then some (Json.obj [], rest) else none
    | '"' :: rest =>
      match parseJStringAux rest.length [] rest with
      | none => none
      | some (k, rest1) =>
        match skipWs rest1 with
        | ':' :: rest2 =>
          match parseValue fuel rest2 with
          | none => none
          | some (v, rest3) =>
            match skipWs rest3 with
            | ',' :: rest4 => parseObjItems fuel (skipWs rest4) (acc ++ [(k, v)])
            | '\x7d' :: rest4 => some (Json.obj (acc ++ [(k, v)]), rest4)
            | _ => none
        | _ => none
    | _ => none

end

/-- Parse step of `json.Unmarshal`: one JSON value, optionally surrounded
by whitespace, and nothing else. -/
def parseJson (s : String) : Option Json :=
  match parseValue (2 * s.data.length + 4) s.data with
  | some (v, rest) => if skipWs rest = [] then some v else none
  | none => none

/-! ### Per-shape decoding (model of `json.Unmarshal` at each endpoint) -/

/-- Last-wins lookup in an object's fields, as building a Go map from the
object's keys in order. -/
def jlookup (k : String) : List (String × Json) → Option Json
  | [] => none
  | f :: rest =>
    match jlookup k rest with
    | some v => some v
    | none => if f.1 = k then some f.2 else none

def foldLower (c : Char) : Char :=
  if 65 ≤ c.toNat ∧ c.toNat ≤ 90 then chOfNat (c.toNat + 32) else c

/-- Struct-field matching: `encoding/json` accepts a case-insensitive
match of the field's JSON name; the last matching object key wins. -/
def fieldGet (name : String) : List (String × Json) → Option Json
  | [] => none
  | f :: rest =>
    match fieldGet name rest with
    | some v => some v
    | none => if f.1.data.map foldLower = name.data.map foldLower then some f.2 else none

/-- A JSON number lands in a Go `int` field through `strconv.ParseInt` of
the literal, so only plain integer literals (base-10 exponent zero) are
accepted. -/
def jsonToInt : Json → Option Int
  | Json.num man e => if e = 0 then some man else none
  | _ => none

def jsonToNumPair : Json → Option (Int × Int)
  | Json.num man e => some (man, e)
  | _ => none

def jsonToString : Json → Option String
  | Json.str s => some s
  | _ => none

def jsonToObjFields : Json → Option (List (String × Json))
  | Json.obj fs => some fs
  | _ => none

def jsonToStringList : Json → Option (List String)
  | Json.arr xs => xs.mapM jsonToString
  | _ => none

def jsonToIntMap : Json → Option (List (String × Int))
  | Json.obj fs => fs.mapM (fun f => (jsonToInt f.2).map (fun n => (f.1, n)))
  | _ => none

def jsonToIntMapMap : Json → Option (List (String × List (String × Int)))
  | Json.obj fs => fs.mapM (fun f => (jsonToIntMap f.2).map (fun v => (f.1, v)))
  | _ => none

/-- One struct field: absent or `null` leaves the zero value; a present
value must convert, else the decode errors. -/
def decodeField {α : Type} (fs : List (String × Json)) (name : String) (dflt : α)
    (conv : Json → Option α) : Option α :=
  match fieldGet name fs with
  | none => some dflt
  | some Json.null => some dflt
  | some v => conv v

/-- Shape shared by `EventQueryResult.Data` and
`SegmentationQueryResult.Data` (anonymous struct in the source). -/
structure EventQueryData where
  Series : List String
  Values : List (String × List (String × Int))

def EventQueryData.zero : EventQueryData := ⟨[], []⟩

structure EventQueryResult where
  LegendSize : Int
  Data : EventQueryData

def EventQueryResult.zero : EventQueryResult := ⟨0, EventQueryData.zero⟩

structure SegmentationQueryResult where
  LegendSize : Int
  Data : EventQueryData

def SegmentationQueryResult.zero : SegmentationQueryResult := ⟨0, EventQueryData.zero⟩

/-- The `PercentageChange` field is a Go `float64`; the JSON number is
kept exactly as a (mantissa, base-10 exponent) pair. -/
structure TopEventsEntry where
  Amount : Int
  Event : String
  PercentageChange : Int × Int

structure TopEventsResult where
  Type' : String
  Events : List TopEventsEntry

def TopEventsResult.zero : TopEventsResult := ⟨"", []⟩

structure ExportQueryResult where
  Event : String
  Properties : List (String × Json)

def unmarshalEventQueryData (v : Json) : Option EventQueryData :=
  match v with
  | Json.obj fs => do
    let series ← decodeField fs "series" [] jsonToStringList
    let values ← decodeField fs "values" [] jsonToIntMapMap
    some ⟨series, values⟩
  | _ => none

def unmarshalEventQueryResult (body : String) : Option EventQueryResult :=
  match parseJson body with
  | none => none
  | some Json.null => some EventQueryResult.zero
  | some (Json.obj fs) => do
    let ls ← decodeField fs "legend_size" 0 jsonToInt
    let d ← decodeField fs "data" EventQueryData.zero unmarshalEventQueryData
    some ⟨ls, d⟩
  | some _ => none

def unmarshalSegmentationQueryResult (body : String) : Option SegmentationQueryResult :=
  match parseJson body with
  | none => none
  | some Json.null => some SegmentationQueryResult.zero
  | some (Json.obj fs) => do
    let ls ← decodeField fs "legend_size" 0 jsonToInt
    let d ← decodeField fs "data" EventQueryData.zero unmarshalEventQueryData
    some ⟨ls, d⟩
  | some _ => none

def unmarshalTopEventsEntry (v : Json) : Option TopEventsEntry :=
  match v with
  | Json.obj fs => do
    let amount ← decodeField fs "amount" 0 jsonToInt
    let ev ← decodeField fs "event" "" jsonToString
    let pc ← decodeField fs "percent_change" (0, 0) jsonToNumPair
    some ⟨amount, ev, pc⟩
  | _ => none

def jsonToTopEventsEntries : Json → Option (List TopEventsEntry)
  | Json.arr xs => xs.mapM unmarshalTopEventsEntry
  | _ => none

def unmarshalTopEventsResult (body : String) : Option TopEventsResult :=
  match parseJson body with
  | none => none
  | some Json.null => some TopEventsResult.zero
  | some (Json.obj fs) => do
    let ty ← decodeField fs "type" "" jsonToString
    let evs ← decodeField fs "events" [] jsonToTopEventsEntries
    some ⟨ty, evs⟩
  | some _ => none

def unmarshalCommonEvents (body : String) : Option (List String) :=
  match parseJson body with
  | none => none
  | some Json.null => some []
  | some v => jsonToStringList v

def unmarshalExportLine (s : String) : Option ExportQueryResult :=
  match parseJson s with
  | none => none
  | some Json.null => some ⟨"", []⟩
  | some (Json.obj fs) => do
    let ev ← decodeField fs "event" "" jsonToString
    let props ← decodeField fs "properties" [] jsonToObjFields
    some ⟨ev, props⟩
  | some _ => none

/-- Decoding into a nil `map[string]interface` value: only a JSON object
fills the map; a parse error, `null`, or a non-object leaves it nil.  The
error status is separate, and `PeopleQuery` drops it. -/
def unmarshalMapSI (body : String) : Option (List (String × Json)) :=
  match parseJson body with
  | some (Json.obj fs) => some fs
  | _ => none

/-! ### Endpoint methods, from the transport result onward -/

/-- Outcome of `MakeRequest`: a transport error, or the raw body bytes. -/
abbrev HttpResult := Except Unit String

def EventQuery (resp : HttpResult) : Except Unit EventQueryResult :=
  match resp with
  | Except.error e => Except.error e
  | Except.ok body =>
    match unmarshalEventQueryResult body with
    | some r => Except.ok r
    | none => Except.error ()

def SegmentationQuery (resp : HttpResult) : Except Unit SegmentationQueryResult :=
  match resp with
  | Except.error e => Except.error e
  | Except.ok body =>
    match unmarshalSegmentationQueryResult body with
    | some r => Except.ok r
    | none => Except.error ()

def TopEvents (resp : HttpResult) : Except Unit TopEventsResult :=
  match resp with
  | Except.error e => Except.error e
  | Except.ok body =>
    match unmarshalTopEventsResult body with
    | some r => Except.ok r
    | none => Except.error ()

def MostCommonEventsLast31Days (resp : HttpResult) : Except Unit (List String) :=
  match resp with
  | Except.error e => Except.error e
  | Except.ok body =>
    match unmarshalCommonEvents body with
    | some r => Except.ok r
    | none => Except.error ()

/-- Method `PeopleQuery` ignores the value `json.Unmarshal` returns (source line
208) and answers `(result, nil)` whenever the transport succeeded. -/
def PeopleQuery (resp : HttpResult) : Except Unit (Option (List (String × Json))) :=
  match resp with
  | Except.error e => Except.error e
  | Except.ok body => Except.ok (unmarshalMapSI body)

/-- Method `ExportQuery` splits the body on newlines, skips blank lines, skips
(and logs) lines that fail to decode, and always succeeds after a
successful transport. -/
def ExportQuery (resp : HttpResult) : Except Unit (List ExportQueryResult) :=
  match resp with
  | Except.error e => Except.error e
  | Except.ok body =>
    Except.ok ((stringsSplit body '\n').filterMap
      (fun s => if s = "" then none else unmarshalExportLine s))

/-- How `UserInfo` can fail: a propagated error, or a runtime panic from
one of its unchecked type assertions. -/
inductive UserInfoFailure where
  | err
  | panicked

/-- Method `UserInfo` on the decoded `PeopleQuery` result: asserts
`result["results"]` is a list; empty list gives an empty map, otherwise
the first element's `$properties` object is asserted and returned. -/
def UserInfo (resp : HttpResult) : Except UserInfoFailure (List (String × Json)) :=
  match PeopleQuery resp with
  | Except.error _ => Except.error UserInfoFailure.err
  | Except.ok result =>
    match jlookup "results" (result.getD []) with
    | some (Json.arr items) =>
      match items with
      | [] => Except.ok []
      | first :: _ =>
        match first with
        | Json.obj f1 =>
          match jlookup "$properties" f1 with
          | some (Json.obj props) => Except.ok props
          | _ => Except.error UserInfoFailure.panicked
        | _ => Except.error UserInfoFailure.panicked
    | _ => Except.error UserInfoFailure.panicked

/-! ### Association-list lemmas -/

/-- Distinct keys, the invariant every Go map value satisfies. -/
abbrev NodupKeys (ps : Params) : Prop := (keysOf ps).Nodup

theorem plookup_eraseKey_self (k : String) (ps : Params) : plookup k (eraseKey k ps) = none := by
  induction ps with
  | nil => rfl
  | cons p rest ih =>
    by_cases h : p.1 = k
    · simpa [eraseKey, h] using ih
    · simpa [eraseKey, plookup, h] using ih

theorem plookup_eraseKey_ne (h : k' ≠ k) (ps : Params) :
    plookup k (eraseKey k' ps) = plookup k ps := by
  induction ps with
  | nil => rfl
  | cons p rest ih =>
    by_cases hp : p.1 = k'
    · have hk : p.1 ≠ k := by rw [hp]; exact h
      simp [eraseKey, hp, plookup, hk, h, ih]
    · simp [eraseKey, hp, plookup, ih]

theorem plookup_insertKV_self (k v : String) (ps : Params) :
    plookup k (insertKV k v ps) = some v := by
  simp [insertKV, plookup]

theorem plookup_insertKV_ne (h : k' ≠ k) (v : String) (ps : Params) :
    plookup k (insertKV k' v ps) = plookup k ps := by
  simp [insertKV, plookup, h, plookup_eraseKey_ne h]

theorem eraseKey_cons_ne (p : String × String) (h : p.1 ≠ k) (ps : Params) :
    eraseKey k (p :: ps) = p :: eraseKey k ps := by
  simp [eraseKey, h]

theorem eraseKey_cons_self (p : String × String) (h : p.1 = k) (ps : Params) :
    eraseKey k (p :: ps) = eraseKey k ps := by
  simp [eraseKey, h]

theorem eraseKey_idem (k : String) (ps : Params) :
    eraseKey k (eraseKey k ps) = eraseKey k ps := by
  induction ps with
  | nil => rfl
  | cons p rest ih =>
    by_cases h : p.1 = k
    · simp [eraseKey, h, ih]
    · simp [eraseKey, h, ih]

theorem eraseKey_comm (k k' : String) (ps : Params) :
    eraseKey k (eraseKey k' ps) = eraseKey k' (eraseKey k ps) := by
  induction ps with
  | nil => rfl
  | cons p rest ih =>
    by_cases h1 : p.1 = k' <;> by_cases h2 : p.1 = k
    · rw [eraseKey_cons_self p h1, eraseKey_cons_self p h2, ih]
    · rw [eraseKey_cons_self p h1, eraseKey_cons_ne p h2, eraseKey_cons_self p h1, ih]
    · rw [eraseKey_cons_ne p h1, eraseKey_cons_self p h2, eraseKey_cons_self p h2, ih]
    · rw [eraseKey_cons_ne p h1, eraseKey_cons_ne p h2, eraseKey_cons_ne p h2,
        eraseKey_cons_ne p h1, ih]

theorem eraseKey_insertKV_self (k v : String) (ps : Params) :
    eraseKey k (insertKV k v ps) = eraseKey k ps := by
  simp [insertKV, eraseKey, eraseKey_idem]

theorem eraseKey_insertKV_ne (h : k ≠ k') (v : String) (ps : Params) :
    eraseKey k (insertKV k' v ps) = insertKV k' v (eraseKey k ps) := by
  have h' : k' ≠ k := Ne.symm h
  simp only [insertKV]
  rw [eraseKey_cons_ne (k', v) h', eraseKey_comm]

theorem insertKV_insertKV_self (k v w : String) (ps : Params) :
    insertKV k v (insertKV k w ps) = insertKV k v ps := by
  simp [insertKV, eraseKey, eraseKey_idem]

theorem insertKV_squash (h : k ≠ k') (v w v' : String) (ps : Params) :
    insertKV k v (insertKV k' w (insertKV k v' ps)) = insertKV k v (insertKV k' w ps) := by
  have h' : k' ≠ k := Ne.symm h
  simp only [insertKV]
  congr 1
  calc eraseKey k ((k', w) :: eraseKey k' ((k, v') :: eraseKey k ps))
      = eraseKey k ((k', w) :: (k, v') :: eraseKey k' (eraseKey k ps)) := by
        rw [eraseKey_cons_ne (k, v') h]
    _ = (k', w) :: eraseKey k ((k, v') :: eraseKey k' (eraseKey k ps)) := by
        rw [eraseKey_cons_ne (k', w) h']
    _ = (k', w) :: eraseKey k (eraseKey k' (eraseKey k ps)) := by
        rw [eraseKey_cons_self (k, v') rfl]
    _ = (k', w) :: eraseKey k (eraseKey k (eraseKey k' ps)) := by rw [eraseKey_comm k k' ps]
    _ = (k', w) :: eraseKey k (eraseKey k' ps) := by rw [eraseKey_idem]
    _ = eraseKey k ((k', w) :: eraseKey k' ps) := by rw [eraseKey_cons_ne (k', w) h']

/-! ### The byte-wise string order is a decidable linear order -/

theorem char_toNat_injective {a b : Char} (h : a.toNat = b.toNat) : a = b := by
  have ha := Char.ofNat_toNat a
  have hb := Char.ofNat_toNat b
  rw [← ha, ← hb, h]

theorem strLeB_total (as : List Char) : ∀ bs, strLeB as bs = true ∨ strLeB bs as = true := by
  induction as with
  | nil => intro bs; left; rfl
  | cons a as ih =>
    intro bs
    cases bs with
    | nil => right; rfl
    | cons b bs2 =>
      by_cases h : a = b
      · subst h; simpa [strLeB] using ih bs2
      · have hne : a.toNat ≠ b.toNat := fun hh => h (char_toNat_injective hh)
        rcases Nat.lt_or_ge a.toNat b.toNat with hlt | hge
        · left; simp [strLeB, h, hlt]
        · right
          have hgt : b.toNat < a.toNat := Nat.lt_of_le_of_ne hge (Ne.symm hne)
          simp [strLeB, Ne.symm h, hgt]

theorem strLeB_trans (as : List Char) :
    ∀ bs cs, strLeB as bs = true → strLeB bs cs = true → strLeB as cs = true := by
  induction as with
  | nil => intro bs cs _ _; rfl
  | cons a as ih =>
    intro bs cs h1 h2
    cases bs with
    | nil => simp [strLeB] at h1
    | cons b bs2 =>
      cases cs with
      | nil => simp [strLeB] at h2
      | cons c cs2 =>
        by_cases hab : a = b <;> by_cases hbc : b = c
        · subst hab; subst hbc
          simp only [strLeB, if_pos rfl] at h1 h2 ⊢
          exact ih bs2 cs2 h1 h2
        · subst hab
          simp only [strLeB, if_pos rfl] at h1
          simpa [strLeB, hbc] using h2
        · subst hbc
          simp only [strLeB, if_pos rfl] at h2
          simpa [strLeB, hab] using h1
        · simp only [strLeB, if_neg hab, decide_eq_true_eq] at h1
          simp only [strLeB, if_neg hbc, decide_eq_true_eq] at h2
          have hac : a.toNat < c.toNat := Nat.lt_trans h1 h2
          have : a ≠ c := fun hh => by subst hh; exact Nat.lt_irrefl _ hac
          simp [strLeB, this, hac]

theorem strLeB_antisymm (as : List Char) :
    ∀ bs, strLeB as bs = true → strLeB bs as = true → as = bs := by
  induction as with
  | nil =>
    intro bs _ h2
    cases bs with
    | nil => rfl
    | cons b bs2 => simp [strLeB] at h2
  | cons a as ih =>
    intro bs h1 h2
    cases bs with
    | nil => simp [strLeB] at h1
    | cons b bs2 =>
      by_cases hab : a = b
      · subst hab
        simp only [strLeB, if_pos rfl] at h1 h2
        rw [ih bs2 h1 h2]
      · simp only [strLeB, if_neg hab, decide_eq_true_eq] at h1
        simp only [strLeB, if_neg (Ne.symm hab), decide_eq_true_eq] at h2
        omega

instance : IsTotal String goStrLe := ⟨fun a b => strLeB_total a.data b.data⟩

instance : IsTrans String goStrLe := ⟨fun a b c => strLeB_trans a.data b.data c.data⟩

instance : IsAntisymm String goStrLe :=
  ⟨fun a b h1 h2 => by
    cases a; cases b
    exact congrArg String.mk (strLeB_antisymm _ _ h1 h2)⟩

/-! ### Permutation invariance of lookup and of the sorted key list -/

theorem plookup_perm {ps1 ps2 : Params} (hp : ps1.Perm ps2) :
    NodupKeys ps1 → ∀ k, plookup k ps1 = plookup k ps2 := by
  induction hp with
  | nil => intro _ _; rfl
  | cons p hp ih =>
    intro hnd k
    have hnd' : NodupKeys _ := (List.nodup_cons.mp hnd).2
    by_cases h : p.1 = k
    · simp [plookup, h]
    · simp [plookup, h, ih hnd' k]
  | swap x y l =>
    intro hnd k
    have hxy : y.1 ≠ x.1 := by
      have := (List.nodup_cons.mp hnd).1
      intro hh
      exact this (by simp [keysOf, hh])
    by_cases h1 : y.1 = k <;> by_cases h2 : x.1 = k
    · exact absurd (h1.trans h2.symm) hxy
    · simp [plookup, h1, h2]
    · simp [plookup, h1, h2]
    · simp [plookup, h1, h2]
  | trans h12 h23 ih1 ih2 =>
    intro hnd k
    have hnd2 : NodupKeys _ := ((h12.map Prod.fst).nodup_iff).mp hnd
    exact (ih1 hnd k).trans (ih2 hnd2 k)

theorem sortStrings_perm_eq {l1 l2 : List String} (hp : l1.Perm l2) :
    sortStrings l1 = sortStrings l2 :=
  List.eq_of_perm_of_sorted
    ((List.perm_insertionSort goStrLe l1).trans (hp.trans (List.perm_insertionSort goStrLe l2).symm))
    (List.sorted_insertionSort goStrLe l1) (List.sorted_insertionSort goStrLe l2)

theorem canonicalConcat_perm {ps1 ps2 : Params} (hp : ps1.Perm ps2) (hnd : NodupKeys ps1) :
    canonicalConcat ps1 = canonicalConcat ps2 := by
  unfold canonicalConcat sortedKeys keysOf
  rw [sortStrings_perm_eq (hp.map Prod.fst)]
  have hv : (fun k => k ++ "=" ++ getv k ps1) = (fun k => k ++ "=" ++ getv k ps2) := by
    funext k
    rw [getv, getv, plookup_perm hp hnd k]
  rw [hv]

theorem mem_keysOf_eraseKey {x k : String} {ps : Params} :
    x ∈ keysOf (eraseKey k ps) → x ∈ keysOf ps := by
  induction ps with
  | nil => intro h; exact h
  | cons p rest ih =>
    by_cases h : p.1 = k
    · intro hm
      rw [eraseKey_cons_self p h] at hm
      exact List.mem_cons_of_mem _ (ih hm)
    · intro hm
      rw [eraseKey_cons_ne p h] at hm
      rcases List.mem_cons.mp hm with he | hm2
      · exact List.mem_cons.mpr (Or.inl he)
      · exact List.mem_cons_of_mem _ (ih hm2)

theorem not_mem_keysOf_eraseKey (k : String) (ps : Params) :
    k ∉ keysOf (eraseKey k ps) := by
  induction ps with
  | nil => simp [eraseKey, keysOf]
  | cons p rest ih =>
    by_cases h : p.1 = k
    · rw [eraseKey_cons_self p h]; exact ih
    · rw [eraseKey_cons_ne p h]
      intro hm
      rcases List.mem_cons.mp hm with he | hm2
      · exact h he.symm
      · exact ih hm2

theorem nodupKeys_eraseKey (k : String) {ps : Params} (hnd : NodupKeys ps) :
    NodupKeys (eraseKey k ps) := by
  induction ps with
  | nil => exact hnd
  | cons p rest ih =>
    have hnd' := List.nodup_cons.mp hnd
    by_cases h : p.1 = k
    · rw [NodupKeys, eraseKey_cons_self p h]; exact ih hnd'.2
    · rw [NodupKeys, eraseKey_cons_ne p h]
      exact List.nodup_cons.mpr ⟨fun hm => hnd'.1 (mem_keysOf_eraseKey hm), ih hnd'.2⟩

theorem nodupKeys_insertKV (k v : String) {ps : Params} (hnd : NodupKeys ps) :
    NodupKeys (insertKV k v ps) :=
  List.nodup_cons.mpr ⟨not_mem_keysOf_eraseKey k ps, nodupKeys_eraseKey k hnd⟩

theorem perm_eraseKey {ps1 ps2 : Params} (k : String) (hp : ps1.Perm ps2) :
    (eraseKey k ps1).Perm (eraseKey k ps2) := by
  induction hp with
  | nil => exact List.Perm.refl _
  | cons p hp ih =>
    by_cases h : p.1 = k
    · rw [eraseKey_cons_self p h, eraseKey_cons_self p h]; exact ih
    · rw [eraseKey_cons_ne p h, eraseKey_cons_ne p h]; exact ih.cons p
  | swap x y l =>
    by_cases h1 : y.1 = k <;> by_cases h2 : x.1 = k
    · simp [eraseKey, h1, h2]
    · simp [eraseKey, h1, h2]
    · simp [eraseKey, h1, h2]
    · simp only [eraseKey, if_neg h1, if_neg h2]
      exact List.Perm.swap x y (eraseKey k l)
  | trans h12 h23 ih1 ih2 => exact ih1.trans ih2

theorem perm_insertKV {ps1 ps2 : Params} (k v : String) (hp : ps1.Perm ps2) :
    (insertKV k v ps1).Perm (insertKV k v ps2) :=
  (perm_eraseKey k hp).cons (k, v)

/-! ### Facts about `AddSig` and `AddExpire` -/

theorem eraseKey_sig_sigBase (m : Mixpanel) (ps : Params) :
    eraseKey "sig" (sigBase m ps) = sigBase m ps := by
  unfold sigBase
  rw [eraseKey_insertKV_ne (by decide), eraseKey_insertKV_ne (by decide), eraseKey_idem]

theorem insertKV_af_sigBase (m : Mixpanel) (ps : Params) :
    insertKV "format" m.Format (insertKV "api_key" m.ApiKey (sigBase m ps)) = sigBase m ps := by
  unfold sigBase
  rw [insertKV_squash (show ("api_key" : String) ≠ "format" from by decide),
      insertKV_squash (show ("format" : String) ≠ "api_key" from by decide)]

theorem sigBase_AddSig (m : Mixpanel) (ps : Params) :
    sigBase m (AddSig m ps) = sigBase m ps := by
  show insertKV "format" m.Format (insertKV "api_key" m.ApiKey
      (eraseKey "sig" (insertKV "sig" (sigValue m ps) (sigBase m ps)))) = sigBase m ps
  rw [eraseKey_insertKV_self, eraseKey_sig_sigBase, insertKV_af_sigBase]

theorem plookup_other_AddSig (m : Mixpanel) (q : Params) (k : String)
    (h1 : k ≠ "sig") (h2 : k ≠ "format") (h3 : k ≠ "api_key") :
    plookup k (AddSig m q) = plookup k q := by
  show plookup k (insertKV "sig" (sigValue m q) (sigBase m q)) = plookup k q
  rw [plookup_insertKV_ne (Ne.symm h1),
      show sigBase m q = insertKV "format" m.Format
        (insertKV "api_key" m.ApiKey (eraseKey "sig" q)) from rfl,
      plookup_insertKV_ne (Ne.symm h2), plookup_insertKV_ne (Ne.symm h3),
      plookup_eraseKey_ne (Ne.symm h1)]

theorem plookup_other_AddExpire (now : Int) (ps : Params) (k : String) (h : k ≠ "expire") :
    plookup k (AddExpire now ps) = plookup k ps := by
  by_cases hc : getv "expire" ps = ""
  · simp [AddExpire, hc, plookup_insertKV_ne (Ne.symm h)]
  · simp [AddExpire, hc]

/-! ### The claims -/

/-- C1: for the parameter set with single entry `expire="100"`, signing
with `apiKey="k"`, `secret="s"`, `format="json"` hashes exactly the bytes
of `"api_key=kexpire=100format=jsons"` (sorted `key=value` pairs with no
separators, secret appended, `sig` excluded) and stores the lowercase
hexadecimal MD5 digest of those bytes as `params["sig"]`. -/
theorem addSig_known_vector :
    canonicalConcat (sigBase (⟨⟨"k", "s"⟩, "json", "http://mixpanel.com/api/2.0"⟩ : Mixpanel)
        [("expire", "100")]) ++ "s" = "api_key=kexpire=100format=jsons"
  ∧ plookup "sig" (AddSig (⟨⟨"k", "s"⟩, "json", "http://mixpanel.com/api/2.0"⟩ : Mixpanel)
        [("expire", "100")])
      = some (md5Hex (strBytes "api_key=kexpire=100format=jsons"))
  ∧ md5Hex (strBytes "api_key=kexpire=100format=jsons") = "716cb25d675fc53cf60c86563ce64616" := by
  refine ⟨by decide, by decide, by decide⟩

/-- C2: the signature is a pure function of the key/value pairs present at
signing time (plus secret and format): two parameter sets holding the same
pairs in any insertion order sign to the same `sig`. -/
theorem addSig_insertion_order_invariant (m : Mixpanel) (ps1 ps2 : Params)
    (hp : ps1.Perm ps2) (hnd : NodupKeys ps1) :
    plookup "sig" (AddSig m ps1) = plookup "sig" (AddSig m ps2) := by
  have hpB : (sigBase m ps1).Perm (sigBase m ps2) :=
    perm_insertKV _ _ (perm_insertKV _ _ (perm_eraseKey _ hp))
  have hndB : NodupKeys (sigBase m ps1) :=
    nodupKeys_insertKV _ _ (nodupKeys_insertKV _ _ (nodupKeys_eraseKey _ hnd))
  have hc : canonicalConcat (sigBase m ps1) = canonicalConcat (sigBase m ps2) :=
    canonicalConcat_perm hpB hndB
  simp only [AddSig, plookup_insertKV_self, sigValue, hc]

theorem addSig_insertion_order_invariant_witness :
    ([(("a" : String), ("1" : String)), ("b", "2")].Perm [("b", "2"), ("a", "1")])
  ∧ plookup "sig" (AddSig (⟨⟨"k", "s"⟩, "json", "http://mixpanel.com/api/2.0"⟩ : Mixpanel)
        [("a", "1"), ("b", "2")])
      = plookup "sig" (AddSig (⟨⟨"k", "s"⟩, "json", "http://mixpanel.com/api/2.0"⟩ : Mixpanel)
        [("b", "2"), ("a", "1")]) :=
  ⟨by decide, addSig_insertion_order_invariant _ _ _ (by decide) (by decide)⟩

/-- C3: `AddSig` deletes any pre-existing `sig` before hashing (the hashed
set never contains `sig`), so re-signing an unchanged parameter set is
idempotent: the whole signed set, and in particular `sig`, is unchanged. -/
theorem addSig_resign_idempotent (m : Mixpanel) (ps : Params) :
    plookup "sig" (sigBase m ps) = none ∧ AddSig m (AddSig m ps) = AddSig m ps := by
  constructor
  · unfold sigBase
    rw [plookup_insertKV_ne (by decide), plookup_insertKV_ne (by decide), plookup_eraseKey_self]
  · show insertKV "sig" (sigValue m (AddSig m ps)) (sigBase m (AddSig m ps)) = AddSig m ps
    rw [show sigValue m (AddSig m ps)
        = md5Hex (strBytes (canonicalConcat (sigBase m (AddSig m ps)) ++ m.Secret)) from rfl,
      sigBase_AddSig]
    rfl

/-- C5: `AddExpire` never overwrites a present non-empty `expire`; when
`expire` is absent or empty it stores the base-10 string of the Unix
timestamp now + 5 days; every other entry is left unchanged. -/
theorem addExpire_expiry_stamping (now : Int) (ps : Params) :
    (getv "expire" ps ≠ "" → AddExpire now ps = ps)
  ∧ (getv "expire" ps = "" →
      plookup "expire" (AddExpire now ps) = some (toString (now + 5 * 24 * 60 * 60)))
  ∧ (∀ k, k ≠ "expire" → plookup k (AddExpire now ps) = plookup k ps) := by
  refine ⟨?_, ?_, ?_⟩
  · intro h
    simp [AddExpire, h]
  · intro h
    simp [AddExpire, h, plookup_insertKV_self, ExpireInDays, DEFAULT_EXPIRE_IN_DAYS]
  · intro k hk
    exact plookup_other_AddExpire now ps k hk

theorem addExpire_expiry_stamping_witness :
    AddExpire 7 [("expire", "100")] = [("expire", "100")]
  ∧ plookup "expire" (AddExpire 1000 [("a", "b")]) = some "433000"
  ∧ plookup "a" (AddExpire 1000 [("a", "b")]) = some "b" :=
  ⟨(addExpire_expiry_stamping 7 [("expire", "100")]).1 (by decide),
   ((addExpire_expiry_stamping 1000 [("a", "b")]).2.1 (by decide)).trans (by decide),
   (addExpire_expiry_stamping 1000 [("a", "b")]).2.2 "a" (by decide)⟩

/-- C6: after `AddExpire` then `AddSig` (the signing steps of
`MakeRequest`), the parameter set always carries `api_key`, `format`,
`expire` and `sig`, with `api_key` and `format` overwritten to the
client's credential and format even if the caller had set them. -/
theorem signed_request_params_complete (m : Mixpanel) (now : Int) (ps : Params) :
    plookup "api_key" (AddSig m (AddExpire now ps)) = some m.ApiKey
  ∧ plookup "format" (AddSig m (AddExpire now ps)) = some m.Format
  ∧ (plookup "expire" (AddSig m (AddExpire now ps))).isSome = true
  ∧ (plookup "sig" (AddSig m (AddExpire now ps))).isSome = true := by
  refine ⟨?_, ?_, ?_, ?_⟩
  · show plookup "api_key"
      (insertKV "sig" (sigValue m (AddExpire now ps)) (sigBase m (AddExpire now ps))) = _
    rw [plookup_insertKV_ne (by decide),
      show sigBase m (AddExpire now ps) = insertKV "format" m.Format
        (insertKV "api_key" m.ApiKey (eraseKey "sig" (AddExpire now ps))) from rfl,
      plookup_insertKV_ne (by decide), plookup_insertKV_self]
  · show plookup "format"
      (insertKV "sig" (sigValue m (AddExpire now ps)) (sigBase m (AddExpire now ps))) = _
    rw [plookup_insertKV_ne (by decide),
      show sigBase m (AddExpire now ps) = insertKV "format" m.Format
        (insertKV "api_key" m.ApiKey (eraseKey "sig" (AddExpire now ps))) from rfl,
      plookup_insertKV_self]
  · rw [plookup_other_AddSig m _ "expire" (by decide) (by decide) (by decide)]
    by_cases hc : getv "expire" ps = ""
    · simp [AddExpire, hc, plookup_insertKV_self]
    · simp only [AddExpire, hc, if_neg, ite_false]
      cases hl : plookup "expire" ps with
      | none => exact absurd (by simp [getv, hl]) hc
      | some v => rfl
  · show (plookup "sig"
      (insertKV "sig" (sigValue m (AddExpire now ps)) (sigBase m (AddExpire now ps)))).isSome = true
    rw [plookup_insertKV_self]
    rfl

/-- C9: construction fails with the credential error iff the API key or
the secret is empty (for `NewMixpanel`, by way of `log.Fatal`, before any
request exists); with both non-empty the credential holds exactly the two
given strings. -/
theorem credentials_validated_at_construction (apiKey secret : String) :
    ((apiKey = "" ∨ secret = "") →
        NewMixpanelAuth apiKey secret = Except.error "Mixpanel API credentials not found."
      ∧ NewMixpanel apiKey secret = Except.error "Mixpanel API credentials not found.")
  ∧ (apiKey ≠ "" → secret ≠ "" →
        NewMixpanelAuth apiKey secret = Except.ok ⟨apiKey, secret⟩
      ∧ NewMixpanel apiKey secret
          = Except.ok ⟨⟨apiKey, secret⟩, "json", "http://mixpanel.com/api/2.0"⟩) := by
  constructor
  · intro h
    have ha : NewMixpanelAuth apiKey secret
        = Except.error "Mixpanel API credentials not found." := by
      unfold NewMixpanelAuth
      rw [if_pos h]
    exact ⟨ha, by unfold NewMixpanel; rw [ha]⟩
  · intro h1 h2
    have ha : NewMixpanelAuth apiKey secret = Except.ok ⟨apiKey, secret⟩ := by
      unfold NewMixpanelAuth
      rw [if_neg (not_or.mpr ⟨h1, h2⟩)]
    exact ⟨ha, by unfold NewMixpanel; rw [ha]⟩

theorem credentials_validated_at_construction_witness :
    (NewMixpanelAuth "" "s" = Except.error "Mixpanel API credentials not found."
      ∧ NewMixpanel "" "s" = Except.error "Mixpanel API credentials not found.")
  ∧ (NewMixpanelAuth "k" "s" = Except.ok ⟨"k", "s"⟩
      ∧ NewMixpanel "k" "s"
          = Except.ok ⟨⟨"k", "s"⟩, "json", "http://mixpanel.com/api/2.0"⟩) :=
  ⟨(credentials_validated_at_construction "" "s").1 (Or.inl rfl),
   (credentials_validated_at_construction "k" "s").2 (by decide) (by decide)⟩

/-- C10: in `MakeRequest`, an `event` entry holding the empty string is
deleted and never re-added — the signed parameter set carries no `event`
key at all; a present non-empty `event` is split on commas, JSON-encoded
and stored back. -/
theorem makeRequest_event_param (m : Mixpanel) (now : Int) (ps : Params) :
    (plookup "event" ps = some "" → plookup "event" (MakeRequestParams m now ps) = none)
  ∧ (∀ e, plookup "event" ps = some e → e ≠ "" →
      plookup "event" (eventTransform ps) = some (goMarshalStringList (stringsSplit e ','))) := by
  constructor
  · intro h
    have ht : eventTransform ps = eraseKey "event" ps := by simp [eventTransform, h]
    show plookup "event" (AddSig m (AddExpire now (eventTransform ps))) = none
    rw [ht, plookup_other_AddSig m _ "event" (by decide) (by decide) (by decide),
      plookup_other_AddExpire now _ "event" (by decide), plookup_eraseKey_self]
  · intro e he hne
    simp [eventTransform, he, hne, plookup_insertKV_self]

theorem makeRequest_event_param_witness :
    plookup "event" (MakeRequestParams
        (⟨⟨"k", "s"⟩, "json", "http://mixpanel.com/api/2.0"⟩ : Mixpanel) 0
        [("event", ""), ("a", "b")]) = none
  ∧ plookup "event" (eventTransform [("event", "x,y")]) = some "[\"x\",\"y\"]" :=
  ⟨(makeRequest_event_param _ 0 [("event", ""), ("a", "b")]).1 (by decide),
   ((makeRequest_event_param (⟨⟨"k", "s"⟩, "json", "http://mixpanel.com/api/2.0"⟩ : Mixpanel) 0
      [("event", "x,y")]).2 "x,y" (by decide) (by decide)).trans (by decide)⟩

/-- C4 (counterexample): on a malformed body the claim fails for
`PeopleQuery`, which discards the decode error and reports success. -/
theorem peopleQuery_swallows_decode_error :
    parseJson "invalid" = none ∧ PeopleQuery (Except.ok "invalid") = Except.ok none :=
  ⟨rfl, rfl⟩

/-- C4 (amended): a malformed JSON body makes `EventQuery`,
`SegmentationQuery`, `TopEvents` and `MostCommonEventsLast31Days` return a
failure result, but `PeopleQuery` ignores the decode error and returns a
nil result with no error. -/
theorem decode_error_propagation (body : String) (h : parseJson body = none) :
    EventQuery (Except.ok body) = Except.error ()
  ∧ SegmentationQuery (Except.ok body) = Except.error ()
  ∧ TopEvents (Except.ok body) = Except.error ()
  ∧ MostCommonEventsLast31Days (Except.ok body) = Except.error ()
  ∧ PeopleQuery (Except.ok body) = Except.ok none := by
  refine ⟨?_, ?_, ?_, ?_, ?_⟩
  · simp [EventQuery, unmarshalEventQueryResult, h]
  · simp [SegmentationQuery, unmarshalSegmentationQueryResult, h]
  · simp [TopEvents, unmarshalTopEventsResult, h]
  · simp [MostCommonEventsLast31Days, unmarshalCommonEvents, h]
  · simp [PeopleQuery, unmarshalMapSI, h]

theorem decode_error_propagation_witness :
    EventQuery (Except.ok "invalid") = Except.error ()
  ∧ SegmentationQuery (Except.ok "invalid") = Except.error ()
  ∧ TopEvents (Except.ok "invalid") = Except.error ()
  ∧ MostCommonEventsLast31Days (Except.ok "invalid") = Except.error ()
  ∧ PeopleQuery (Except.ok "invalid") = Except.ok none :=
  decode_error_propagation "invalid" rfl

/-- C7: export decoding splits the body on newlines and decodes each line
independently; blank and malformed lines are skipped and the call still
succeeds.  On the spec's vector exactly the records for events `a` and `b`
come back, in order. -/
theorem exportQuery_line_decoding :
    ExportQuery (Except.ok
        "\x7b\"event\":\"a\",\"properties\":\x7b\x7d\x7d\n\ninvalid\n\x7b\"event\":\"b\",\"properties\":\x7b\"x\":1\x7d\x7d")
      = Except.ok [⟨"a", []⟩, ⟨"b", [("x", Json.num 1 0)]⟩]
  ∧ (∀ body, (ExportQuery (Except.ok body)).isOk = true) :=
  ⟨by rfl, fun body => rfl⟩

/-- C8: when the decoded `PeopleQuery` object maps `results` to an empty
list, `UserInfo` returns an empty mapping and no error; when `results` is
non-empty (and shaped as the service returns it), `UserInfo` returns the
first element's `$properties` mapping. -/
theorem userInfo_results_extraction (body : String) (fs : List (String × Json))
    (hdec : unmarshalMapSI body = some fs) :
    (jlookup "results" fs = some (Json.arr []) → UserInfo (Except.ok body) = Except.ok [])
  ∧ (∀ f1 rest props, jlookup "results" fs = some (Json.arr (Json.obj f1 :: rest)) →
      jlookup "$properties" f1 = some (Json.obj props) →
      UserInfo (Except.ok body) = Except.ok props) := by
  constructor
  · intro h
    simp [UserInfo, PeopleQuery, hdec, h]
  · intro f1 rest props h1 h2
    simp [UserInfo, PeopleQuery, hdec, h1, h2]

theorem userInfo_results_extraction_witness :
    UserInfo (Except.ok "\x7b\"results\":[]\x7d") = Except.ok []
  ∧ UserInfo (Except.ok "\x7b\"results\":[\x7b\"$properties\":\x7b\"a\":\"b\"\x7d\x7d]\x7d")
      = Except.ok [("a", Json.str "b")] :=
  ⟨(userInfo_results_extraction "\x7b\"results\":[]\x7d" [("results", Json.arr [])] rfl).1 rfl,
   (userInfo_results_extraction "\x7b\"results\":[\x7b\"$properties\":\x7b\"a\":\"b\"\x7d\x7d]\x7d"
      [("results", Json.arr [Json.obj [("$properties", Json.obj [("a", Json.str "b")])]])] rfl).2
      [("$properties", Json.obj [("a", Json.str "b")])] [] [("a", Json.str "b")] rfl rfl⟩
